import Mathlib

/-!
Shallow embedding of the job-alert bot's per-subscriber fetch/dedupe/delivery
engine (`bot.py`) and of its provider normalizers and subscriber store.

Modelling conventions:
* Python `str.strip()` is `pyStrip` (drop leading/trailing whitespace).
* Python `x or default` on optional/empty strings is `pyOr`.
* Python substring test `k in hay` is `pySubstr`.
* Provider HTTP calls are external inputs: a cycle receives the list of
  `asyncio.gather` outcomes, each `Except Unit (List Job)` (an `Except.error`
  is a raised provider exception, treated by the code as zero listings).
* The Telegram delivery channel is an oracle `sendOk : Nat → Bool` giving the
  success of the i-th per-job `send_message` call of the delivery loop; a
  failed send raises, which the engine does not catch.
* The `sent_jobs` table restricted to one subscriber is a list of uids;
  `already_sent` is membership, `remember_sent` appends the uid.
-/

namespace JobBot

/-- Constant `MAX_SEND_PER_RUN = 8` (bot.py line 56). -/
def MAX_SEND_PER_RUN : Nat := 8

/-- Constant `MAX_KEYWORDS_PER_RUN = 10` (bot.py line 57). -/
def MAX_KEYWORDS_PER_RUN : Nat := 10

/-- Constant `RESULTS_PER_PROVIDER = 25` (bot.py line 58). -/
def RESULTS_PER_PROVIDER : Nat := 25

/-- Python `str.strip()`: remove leading and trailing whitespace. -/
def pyStrip (s : String) : String :=
  ⟨List.rdropWhile Char.isWhitespace (List.dropWhile Char.isWhitespace s.data)⟩

/-- Helper for `pySplitComma`: accumulate the current (reversed) chunk. -/
def splitCommaAux : List Char → List Char → List String
  | [], acc => [⟨acc.reverse⟩]
  | c :: rest, acc =>
    if c = ',' then ⟨acc.reverse⟩ :: splitCommaAux rest []
    else splitCommaAux rest (c :: acc)

/-- Python `s.split(",")`. -/
def pySplitComma (s : String) : List String :=
  splitCommaAux s.data []

/-- Python `s.lower()` (ASCII case folding). -/
def pyLower (s : String) : String :=
  ⟨s.data.map Char.toLower⟩

/-- Whether `needle` is a prefix of `hay`. -/
def listPrefixOf : List Char → List Char → Bool
  | [], _ => true
  | _ :: _, [] => false
  | a :: as, b :: bs => a == b && listPrefixOf as bs

/-- Whether `needle` occurs contiguously inside `hay`. -/
def listInfixOf : List Char → List Char → Bool
  | needle, [] => needle.isEmpty
  | needle, h :: t => listPrefixOf needle (h :: t) || listInfixOf needle t

/-- Python `x or default` where `x` is a possibly-missing string field:
`None` and `""` fall back to the default. -/
def pyOr (x : Option String) (d : String) : String :=
  match x with
  | none => d
  | some s => if s = "" then d else s

/-- Python substring containment `needle in hay`. -/
def pySubstr (needle hay : String) : Bool :=
  listInfixOf needle.data hay.data

/-- The `Job` dataclass (bot.py lines 233-241). -/
structure Job where
  uid : String
  title : String
  company : String
  location : String
  url : String
  source : String
  created_at : Option String := none
deriving DecidableEq, Repr

/-- One raw entry of the Remotive response's `jobs` array; `none` is a
missing/null JSON field, `id` is the rendering of the provider-native id. -/
structure RawRemotive where
  id : String
  title : Option String
  company_name : Option String
  candidate_required_location : Option String
  url : Option String
  publication_date : Option String
deriving DecidableEq, Repr

/-- Normalization of one Remotive entry (bot.py lines 256-266). -/
def remotiveJob (j : RawRemotive) : Job :=
  { uid := "remotive:" ++ j.id
    title := pyStrip (pyOr j.title "")
    company := pyStrip (pyOr j.company_name "")
    location := pyStrip (pyOr j.candidate_required_location "Remote/Unspecified")
    url := pyStrip (pyOr j.url "")
    source := "Remotive"
    created_at := j.publication_date }

/-- Function `fetch_remotive` after the HTTP call succeeded (bot.py lines 254-267):
truncate the raw `jobs` array to `RESULTS_PER_PROVIDER`, then normalize. -/
def fetch_remotive (raw : List RawRemotive) : List Job :=
  (raw.take RESULTS_PER_PROVIDER).map remotiveJob

/-- One raw entry of the Adzuna response's `results` array; the nested
`company.display_name` / `location.display_name` lookups are flattened. -/
structure RawAdzuna where
  id : String
  title : Option String
  company_display_name : Option String
  location_display_name : Option String
  redirect_url : Option String
  created : Option String
deriving DecidableEq, Repr

/-- Normalization of one Adzuna entry (bot.py lines 292-305);
`whereLoc` is the subscriber's stored location string. -/
def adzunaJob (whereLoc : String) (j : RawAdzuna) : Job :=
  { uid := "adzuna:" ++ j.id
    title := pyStrip (pyOr j.title "")
    company := pyStrip (pyOr j.company_display_name "")
    location :=
      if pyStrip (pyOr j.location_display_name "") ≠ "" then
        pyStrip (pyOr j.location_display_name "")
      else if pyStrip whereLoc ≠ "" then pyStrip whereLoc
      else "Unspecified"
    url := pyStrip (pyOr j.redirect_url "")
    source := "Adzuna"
    created_at := j.created }

/-- Function `fetch_adzuna` after the HTTP call succeeded (bot.py lines 291-306). -/
def fetch_adzuna (whereLoc : String) (raw : List RawAdzuna) : List Job :=
  (raw.take RESULTS_PER_PROVIDER).map (adzunaJob whereLoc)

/-- Function `esc` (bot.py lines 342-343): HTML-escape `&`, `<`, `>`. -/
def esc (s : String) : String :=
  ((s.replace "&" "&amp;").replace "<" "&lt;").replace ">" "&gt;"

/-- Function `fmt_job` (bot.py lines 346-354): render one job message. -/
def fmt_job (job : Job) : String :=
  let created :=
    match job.created_at with
    | some c => if c = "" then "" else "\n🕒 <i>" ++ esc c ++ "</i>"
    | none => ""
  "💼 <b>" ++ esc job.title ++ "</b>\n" ++
  "🏢 " ++ esc (if job.company = "" then "Unknown" else job.company) ++ "\n" ++
  "📍 " ++ esc (if job.location = "" then "Unspecified" else job.location) ++ created ++ "\n" ++
  "🔗 <a href=\"" ++ job.url ++ "\">Apply / View</a>\n" ++
  "🏷️ <i>Source: " ++ esc job.source ++ "</i>"

/-- Function `parse_keywords_csv` (bot.py lines 391-396). -/
def parse_keywords_csv (csv : String) : List String :=
  let kws := ((pySplitComma csv).map pyStrip).filter (fun k => k != "")
  if kws = [] ∨ (kws.length = 1 ∧
      (pyLower (kws.headD "") = "all" ∨ pyLower (kws.headD "") = "*")) then
    [""]
  else
    kws.take MAX_KEYWORDS_PER_RUN

/-- Function `keyword_match_any` (bot.py lines 399-404). -/
def keyword_match_any (job : Job) (csv : String) : Bool :=
  let kws := (((pySplitComma csv).map pyStrip).filter (fun k => k != "")).map pyLower
  if kws.isEmpty then true
  else
    let hay := pyLower (job.title ++ " " ++ job.company ++ " " ++ job.location)
    kws.any (fun k => pySubstr k hay)

/-- One row of the `users` table (bot.py lines 87-98). -/
structure UserRow where
  chat_id : Int
  keywords : String
  location : String
  sources : String
  interval_min : Int
  last_run : Int
deriving DecidableEq, Repr

/-- Function `upsert_user` (bot.py lines 168-183): SQLite
`INSERT ... VALUES (..., 0) ON CONFLICT(chat_id) DO UPDATE SET` the four
preference columns, leaving `last_run` out of the update list. -/
def upsert_user (rows : List UserRow) (cid : Int) (keywords location sources : String)
    (interval : Int) : List UserRow :=
  match rows with
  | [] => [⟨cid, keywords, location, sources, interval, 0⟩]
  | r :: rest =>
    if r.chat_id = cid then
      ⟨cid, keywords, location, sources, interval, r.last_run⟩ :: rest
    else
      r :: upsert_user rest cid keywords location sources interval

/-- Function `get_user` (bot.py lines 186-194): select the subscriber's row. -/
def get_user (rows : List UserRow) (cid : Int) : Option UserRow :=
  rows.find? (fun r => r.chat_id == cid)

/-- Collect the listings from the `asyncio.gather(..., return_exceptions=True)`
outcomes (bot.py lines 546-551): an exception contributes nothing. -/
def collectJobs : List (Except Unit (List Job)) → List Job
  | [] => []
  | Except.error _ :: rest => collectJobs rest
  | Except.ok l :: rest => l ++ collectJobs rest

/-- Python dict assignment `m[k] = v`: an existing key keeps its position and
gets the new value, a new key is appended. -/
def updateAssoc : List (String × Job) → String → Job → List (String × Job)
  | [], k, v => [(k, v)]
  | (k', v') :: rest, k, v =>
    if k' = k then (k, v) :: rest else (k', v') :: updateAssoc rest k v

/-- The intra-run dedupe dict build (bot.py lines 554-558): skip jobs with an
empty url, key the rest by uid, last write wins. -/
def uniqPass (jobs : List Job) : List (String × Job) :=
  jobs.foldl (fun m j => if j.url = "" then m else updateAssoc m j.uid j) []

/-- Step `jobs = list(uniq.values())` (bot.py line 559). -/
def dedupeRun (jobs : List Job) : List Job :=
  (uniqPass jobs).map Prod.snd

/-- The keyword post-filter step (bot.py lines 561-564): skipped when the
parsed keyword list is the unfiltered sentinel `[""]`. -/
def filterStage (csv : String) (jobs : List Job) : List Job :=
  if parse_keywords_csv csv = [""] then jobs
  else jobs.filter (fun j => keyword_match_any j csv)

/-- The cross-run dedupe step (bot.py lines 567-571): keep jobs whose uid is
not already recorded for this subscriber (`already_sent`). -/
def newStage (sent : List String) (jobs : List Job) : List Job :=
  jobs.filter (fun j => !(sent.contains j.uid))

/-- The full merge → intra-run dedupe → keyword filter → cross-run dedupe
pipeline producing `new_jobs` (bot.py lines 546-571). -/
def pipelineNew (keywordsCsv : String) (results : List (Except Unit (List Job)))
    (sent : List String) : List Job :=
  newStage sent (filterStage keywordsCsv (dedupeRun (collectJobs results)))

/-- Observable outcome of the delivery loop (bot.py lines 580-589). -/
structure LoopOut where
  attempted : List Job
  delivered : List Job
  recorded : List String
  aborted : Bool
deriving DecidableEq, Repr

/-- The delivery loop (bot.py lines 580-589): for each selected job attempt
the channel send; on success write the delivery record and continue; a send
failure raises out of the loop uncaught. -/
def sendLoop (sendOk : Nat → Bool) : Nat → List Job → LoopOut
  | _, [] => ⟨[], [], [], false⟩
  | i, j :: rest =>
    if sendOk i then
      let out := sendLoop sendOk (i + 1) rest
      ⟨j :: out.attempted, j :: out.delivered, j.uid :: out.recorded, out.aborted⟩
    else
      ⟨[j], [], [], true⟩

/-- Observable effects of one `fetch_and_send_for_user` cycle:
`recorded` are the uids newly inserted into `sent_jobs`, `lastRun` is the
value written by `mark_last_run` (if reached), `summary` the forced-path
text message, `aborted` whether an uncaught send exception escaped. -/
structure CycleResult where
  attempted : List Job
  delivered : List Job
  recorded : List String
  lastRun : Option Int
  summary : Option String
  aborted : Bool
deriving DecidableEq, Repr

/-- The result of the early `return` on the due gate (bot.py lines 526-527):
nothing fetched, sent, or written. -/
def noOpResult : CycleResult :=
  ⟨[], [], [], none, none, false⟩

/-- Function `fetch_and_send_for_user` (bot.py lines 522-594). `now` is the timestamp
captured at cycle entry, `results` the gathered provider outcomes, `sent`
the subscriber's existing `sent_jobs` uids. -/
def fetch_and_send_for_user (sendOk : Nat → Bool) (row : UserRow) (force : Bool)
    (now : Int) (results : List (Except Unit (List Job))) (sent : List String) :
    CycleResult :=
  if force = false ∧ now - row.last_run < row.interval_min * 60 then
    noOpResult
  else
    let newJobs := pipelineNew row.keywords results sent
    if newJobs = [] then
      { attempted := []
        delivered := []
        recorded := []
        lastRun := some now
        summary := if force then some "No new matching jobs right now 🙂" else none
        aborted := false }
    else
      let out := sendLoop sendOk 0 (newJobs.take MAX_SEND_PER_RUN)
      if out.aborted then
        { attempted := out.attempted
          delivered := out.delivered
          recorded := out.recorded
          lastRun := none
          summary := none
          aborted := true }
      else
        { attempted := out.attempted
          delivered := out.delivered
          recorded := out.recorded
          lastRun := some now
          summary :=
            if force then some ("✅ Sent " ++ toString out.delivered.length ++ " jobs.")
            else none
          aborted := false }

/-! Concrete fixtures used to instantiate the theorems below. -/

/-- A listing matching the keyword "python". -/
def jobPy : Job :=
  { uid := "remotive:1", title := "Python Dev", company := "Acme",
    location := "Remote", url := "https://a", source := "Remotive" }

/-- A listing matching the keyword "java". -/
def jobJava : Job :=
  { uid := "remotive:2", title := "Java Dev", company := "Acme",
    location := "Remote", url := "https://b", source := "Remotive" }

/-- A listing matching no preference keyword. -/
def jobSales : Job :=
  { uid := "remotive:3", title := "Sales Rep", company := "Acme",
    location := "Onsite", url := "https://c", source := "Remotive" }

/-- A bundle of nine distinct python listings, to overflow the send cap. -/
def jobN (n : Nat) : Job :=
  { uid := "remotive:n" ++ toString n, title := "Python Dev " ++ toString n,
    company := "Acme", location := "Remote", url := "https://n" ++ toString n,
    source := "Remotive" }

/-- Nine distinct matching listings (one more than the send cap). -/
def nineJobs : List Job :=
  (List.range 9).map jobN

/-- A subscriber row fixture. -/
def rowFix : UserRow :=
  { chat_id := 7, keywords := "python,java", location := "",
    sources := "remotive", interval_min := 30, last_run := 0 }

/-- A normalized listing with an empty company field. -/
def jobNoCo : Job :=
  { uid := "remotive:9", title := "Python Dev", company := "",
    location := "Remote", url := "https://x", source := "Remotive" }

/-- A raw Remotive entry whose `company_name` and
`candidate_required_location` fields are missing. -/
def rawNoCompany : RawRemotive :=
  { id := "9", title := some "Python Dev", company_name := none,
    candidate_required_location := none, url := some "https://x",
    publication_date := none }

/-- A raw Adzuna entry whose `location.display_name` field is missing. -/
def rawAdzNoLoc : RawAdzuna :=
  { id := "4", title := some "Python Dev", company_display_name := some "Acme",
    location_display_name := none, redirect_url := some "https://y",
    created := none }

/-! ### Helper lemmas -/

theorem sendLoop_all_ok (l : List Job) :
    ∀ i, sendLoop (fun _ => true) i l = ⟨l, l, l.map Job.uid, false⟩ := by
  induction l with
  | nil => intro i; rfl
  | cons j rest ih => intro i; simp [sendLoop, ih (i + 1)]

theorem sendLoop_delivered_mem (s : Nat → Bool) (l : List Job) :
    ∀ i j, j ∈ (sendLoop s i l).delivered → j ∈ l := by
  induction l with
  | nil => intro i j h; simp [sendLoop] at h
  | cons a rest ih =>
    intro i j h
    by_cases hs : s i = true
    · simp only [sendLoop, hs, if_true] at h
      rcases List.mem_cons.mp h with h | h
      · simp [h]
      · exact List.mem_cons_of_mem _ (ih (i + 1) j h)
    · rw [Bool.not_eq_true] at hs
      simp [sendLoop, hs] at h

theorem collectJobs_filter_isOk (results : List (Except Unit (List Job))) :
    collectJobs (results.filter (fun r => r.isOk)) = collectJobs results := by
  induction results with
  | nil => rfl
  | cons r rest ih =>
    cases r with
    | error e =>
      have he : (Except.error e : Except Unit (List Job)).isOk = false := rfl
      rw [List.filter_cons, he]
      simp [collectJobs, ih]
    | ok l =>
      have ho : (Except.ok l : Except Unit (List Job)).isOk = true := rfl
      rw [List.filter_cons, ho]
      simp [collectJobs, ih]

theorem gate_passed_shape (sendOk : Nat → Bool) (row : UserRow) (force : Bool)
    (now : Int) (results : List (Except Unit (List Job))) (sent : List String)
    (h : ¬(force = false ∧ now - row.last_run < row.interval_min * 60)) :
    (fetch_and_send_for_user sendOk row force now results sent).lastRun = some now ∨
    (fetch_and_send_for_user sendOk row force now results sent).aborted = true := by
  unfold fetch_and_send_for_user
  rw [if_neg h]
  by_cases hnew : pipelineNew row.keywords results sent = []
  · simp [hnew]
  · simp only [hnew, if_neg (by simpa using hnew)]
    by_cases hab : (sendLoop sendOk 0 ((pipelineNew row.keywords results sent).take
        MAX_SEND_PER_RUN)).aborted = true
    · simp [hab]
    · simp [hab]

theorem delivered_mem_pipeline (sendOk : Nat → Bool) (row : UserRow) (force : Bool)
    (now : Int) (results : List (Except Unit (List Job))) (sent : List String)
    (j : Job) (hj : j ∈ (fetch_and_send_for_user sendOk row force now results sent).delivered) :
    j ∈ pipelineNew row.keywords results sent := by
  unfold fetch_and_send_for_user at hj
  by_cases hgate : force = false ∧ now - row.last_run < row.interval_min * 60
  · rw [if_pos hgate] at hj
    simp [noOpResult] at hj
  · rw [if_neg hgate] at hj
    by_cases hnew : pipelineNew row.keywords results sent = []
    · simp [hnew] at hj
    · simp only [hnew, if_neg (by simpa using hnew)] at hj
      by_cases hab : (sendLoop sendOk 0 ((pipelineNew row.keywords results sent).take
          MAX_SEND_PER_RUN)).aborted = true
      · simp only [hab, if_true] at hj
        exact List.take_subset _ _ (sendLoop_delivered_mem sendOk _ 0 j hj)
      · simp only [hab, if_false] at hj
        exact List.take_subset _ _ (sendLoop_delivered_mem sendOk _ 0 j hj)

/-! ### Claims -/

/-- Claim C1: once the delivery record for `(S, U)` has been written (uid `U`
is in the subscriber's `sent_jobs`), a later cycle in which the providers
return a listing with the same uid never delivers that listing again: the
cross-run dedupe drops it before delivery. -/
theorem recorded_uid_never_redelivered (sendOk : Nat → Bool) (row : UserRow)
    (force : Bool) (now : Int) (results : List (Except Unit (List Job)))
    (sent : List String) (U : String) (hU : U ∈ sent) :
    U ∉ (fetch_and_send_for_user sendOk row force now results sent).delivered.map Job.uid := by
  intro hmem
  rcases List.mem_map.mp hmem with ⟨j, hj, huid⟩
  have hjn := delivered_mem_pipeline sendOk row force now results sent j hj
  unfold pipelineNew newStage at hjn
  have hcont := (List.mem_filter.mp hjn).2
  rw [huid] at hcont
  simp at hcont
  exact hcont hU

/-- Witness for C1 at a concrete cycle. -/
theorem recorded_uid_never_redelivered_witness :
    "remotive:1" ∉ (fetch_and_send_for_user (fun _ => true) rowFix true 2000
      [Except.ok [jobPy]] ["remotive:1"]).delivered.map Job.uid :=
  recorded_uid_never_redelivered (fun _ => true) rowFix true 2000
    [Except.ok [jobPy]] ["remotive:1"] "remotive:1" (by decide)

/-- Claim C2: a non-forced cycle invoked before `last_run + interval_min * 60`
returns as a complete no-op (independent of the provider results: nothing
delivered, recorded or written); in particular at `T + 60*I - 1` it is a
no-op, and at `T + 60*I` it proceeds. -/
theorem due_gate_controls_cycle (sendOk : Nat → Bool) (row : UserRow)
    (results : List (Except Unit (List Job))) (sent : List String) (now : Int) :
    (now - row.last_run < row.interval_min * 60 →
      fetch_and_send_for_user sendOk row false now results sent = noOpResult) ∧
    fetch_and_send_for_user sendOk row false
      (row.last_run + row.interval_min * 60 - 1) results sent = noOpResult ∧
    fetch_and_send_for_user sendOk row false
      (row.last_run + row.interval_min * 60) results sent ≠ noOpResult := by
  refine ⟨fun h => ?_, ?_, ?_⟩
  · unfold fetch_and_send_for_user
    rw [if_pos ⟨rfl, h⟩]
  · unfold fetch_and_send_for_user
    rw [if_pos ⟨rfl, by omega⟩]
  · intro heq
    have hgate : ¬(false = false ∧
        row.last_run + row.interval_min * 60 - row.last_run < row.interval_min * 60) := by
      rintro ⟨-, h⟩
      omega
    rcases gate_passed_shape sendOk row false (row.last_run + row.interval_min * 60)
        results sent hgate with h1 | h1 <;>
      rw [heq] at h1 <;> simp [noOpResult] at h1

/-- Witness for C2 at a concrete blocked cycle. -/
theorem due_gate_controls_cycle_witness :
    fetch_and_send_for_user (fun _ => true) rowFix false 100
      [Except.ok [jobPy]] [] = noOpResult :=
  (due_gate_controls_cycle (fun _ => true) rowFix [Except.ok [jobPy]] [] 100).1 (by decide)

/-- Claim C5: a failed provider call (an exception among the gathered results)
contributes zero listings and is transparent to the cycle: the cycle behaves
exactly as if only the successful calls had happened, so the successful
provider's new listings are still filtered, delivered and recorded, and the
cycle is not treated as failed. -/
theorem provider_failure_is_transparent (sendOk : Nat → Bool) (row : UserRow)
    (force : Bool) (now : Int) (rest results : List (Except Unit (List Job)))
    (sent : List String) :
    (fetch_and_send_for_user sendOk row force now (Except.error () :: rest) sent =
      fetch_and_send_for_user sendOk row force now rest sent) ∧
    (fetch_and_send_for_user sendOk row force now results sent =
      fetch_and_send_for_user sendOk row force now
        (results.filter (fun r => r.isOk)) sent) := by
  constructor
  · simp only [fetch_and_send_for_user, pipelineNew, collectJobs]
  · simp only [fetch_and_send_for_user, pipelineNew, collectJobs_filter_isOk]

/-- Claim C6: every cycle that passes the due check (forced, or due) updates
the subscriber's last-run timestamp to the cycle's entry time, both with zero
new listings and with deliveries (channel sends succeeding). -/
theorem last_run_always_advanced (row : UserRow) (force : Bool) (now : Int)
    (results : List (Except Unit (List Job))) (sent : List String)
    (h : force = true ∨ ¬(now - row.last_run < row.interval_min * 60)) :
    (fetch_and_send_for_user (fun _ => true) row force now results sent).lastRun =
      some now := by
  have hgate : ¬(force = false ∧ now - row.last_run < row.interval_min * 60) := by
    rcases h with h | h
    · simp [h]
    · tauto
  unfold fetch_and_send_for_user
  rw [if_neg hgate]
  by_cases hnew : pipelineNew row.keywords results sent = []
  · simp [hnew]
  · simp [hnew, sendLoop_all_ok]

/-- Witness for C6: a forced cycle with deliveries, and its conclusion. -/
theorem last_run_always_advanced_witness :
    (fetch_and_send_for_user (fun _ => true) rowFix true 2000
      [Except.ok [jobPy]] []).lastRun = some 2000 :=
  last_run_always_advanced rowFix true 2000 [Except.ok [jobPy]] [] (Or.inl rfl)

/-- Claim C10: a preference update through `upsert_user` changes only the
keywords, location, sources and interval columns of an existing subscriber's
row and leaves its `last_run` unchanged; only a newly created subscriber gets
`last_run = 0`; other subscribers' rows are untouched. -/
theorem upsert_updates_prefs_only (rows : List UserRow) (cid : Int)
    (k l s : String) (i : Int) :
    (∀ r, get_user rows cid = some r →
      get_user (upsert_user rows cid k l s i) cid =
        some ⟨cid, k, l, s, i, r.last_run⟩) ∧
    (get_user rows cid = none →
      get_user (upsert_user rows cid k l s i) cid = some ⟨cid, k, l, s, i, 0⟩) ∧
    (∀ cid' : Int, cid' ≠ cid →
      get_user (upsert_user rows cid k l s i) cid' = get_user rows cid') := by
  induction rows with
  | nil =>
    refine ⟨fun r h => by simp [get_user] at h, fun _ => ?_, fun cid' hne => ?_⟩
    · simp [get_user, upsert_user, List.find?]
    · have hb : (cid == cid') = false := by
        simp only [beq_eq_false_iff_ne, ne_eq]
        omega
      simp [get_user, upsert_user, List.find?, hb]
  | cons hd rest ih =>
    by_cases hr : hd.chat_id = cid
    · have hb : (hd.chat_id == cid) = true := beq_iff_eq.mpr hr
      refine ⟨fun r h => ?_, fun h => ?_, fun cid' hne => ?_⟩
      · have h' : hd = r := by simpa [get_user, List.find?, hb] using h
        subst h'
        simp [upsert_user, hr, get_user, List.find?]
      · simp [get_user, List.find?, hb] at h
      · have hb1 : (cid == cid') = false := by
          simp only [beq_eq_false_iff_ne, ne_eq]
          omega
        have hb2 : (hd.chat_id == cid') = false := by
          simp only [beq_eq_false_iff_ne, ne_eq, hr]
          omega
        simp [upsert_user, hr, get_user, List.find?, hb1, hb2]
    · have hb : (hd.chat_id == cid) = false := by
        simp only [beq_eq_false_iff_ne, ne_eq]
        exact hr
      refine ⟨fun r h => ?_, fun h => ?_, fun cid' hne => ?_⟩
      · simp only [get_user, List.find?, hb] at h
        simp only [upsert_user, hr, if_false, get_user, List.find?, hb]
        exact ih.1 r h
      · simp only [get_user, List.find?, hb] at h
        simp only [upsert_user, hr, if_false, get_user, List.find?, hb]
        exact ih.2.1 h
      · by_cases hh : hd.chat_id = cid'
        · have hb3 : (hd.chat_id == cid') = true := beq_iff_eq.mpr hh
          simp only [upsert_user, hr, if_false, get_user, List.find?, hb3]
        · have hb3 : (hd.chat_id == cid') = false := by
            simp only [beq_eq_false_iff_ne, ne_eq]
            exact hh
          simp only [upsert_user, hr, if_false, get_user, List.find?, hb3]
          exact ih.2.2 cid' hne

/-- Witness for C10: updating an existing row keeps its `last_run`; inserting
a fresh subscriber initializes `last_run` to 0. -/
theorem upsert_updates_prefs_only_witness :
    get_user (upsert_user [rowFix] 7 "java" "Pune" "adzuna" 60) 7 =
      some ⟨7, "java", "Pune", "adzuna", 60, 0⟩ :=
  (upsert_updates_prefs_only [rowFix] 7 "java" "Pune" "adzuna" 60).1 rowFix (by decide)

/-- Claim C8: a forced cycle (sends succeeding) produces exactly one summary
notification: "no new matching jobs" when zero listings were delivered,
otherwise the count of jobs sent; a non-forced cycle with zero new listings
sends no message at all. -/
theorem forced_cycle_summary (row : UserRow) (now : Int)
    (results : List (Except Unit (List Job))) (sent : List String) :
    ((fetch_and_send_for_user (fun _ => true) row true now results sent).delivered = [] →
      (fetch_and_send_for_user (fun _ => true) row true now results sent).summary =
        some "No new matching jobs right now 🙂") ∧
    ((fetch_and_send_for_user (fun _ => true) row true now results sent).delivered ≠ [] →
      (fetch_and_send_for_user (fun _ => true) row true now results sent).summary =
        some ("✅ Sent " ++ toString (fetch_and_send_for_user (fun _ => true) row true now
          results sent).delivered.length ++ " jobs.")) ∧
    (pipelineNew row.keywords results sent = [] →
      (fetch_and_send_for_user (fun _ => true) row false now results sent).delivered = [] ∧
      (fetch_and_send_for_user (fun _ => true) row false now results sent).summary = none) := by
  refine ⟨?_, ?_, ?_⟩
  · intro hdel
    unfold fetch_and_send_for_user at hdel ⊢
    rw [if_neg (by simp)] at hdel ⊢
    by_cases hnew : pipelineNew row.keywords results sent = []
    · simp [hnew]
    · simp only [hnew, if_neg (by simpa using hnew), sendLoop_all_ok] at hdel ⊢
      simp at hdel
      rcases hdel with h | h
      · exact absurd h (by decide)
      · exact absurd h hnew
  · intro hdel
    unfold fetch_and_send_for_user at hdel ⊢
    rw [if_neg (by simp)] at hdel ⊢
    by_cases hnew : pipelineNew row.keywords results sent = []
    · simp [hnew] at hdel
    · simp [hnew, sendLoop_all_ok]
  · intro hnew
    unfold fetch_and_send_for_user
    by_cases hgate : (false : Bool) = false ∧ now - row.last_run < row.interval_min * 60
    · rw [if_pos hgate]
      simp [noOpResult]
    · rw [if_neg hgate]
      simp [hnew]

/-- Witness for C8: a forced cycle whose only listing is already recorded
reports "no new matching jobs". -/
theorem forced_cycle_summary_witness :
    (fetch_and_send_for_user (fun _ => true) rowFix true 2000
      [Except.ok [jobPy]] ["remotive:1"]).summary =
      some "No new matching jobs right now 🙂" :=
  (forced_cycle_summary rowFix 2000 [Except.ok [jobPy]] ["remotive:1"]).1 (by decide)

/-! ### Uid uniqueness through the pipeline (for the cap claim) -/

theorem updateAssoc_mem_fst (m : List (String × Job)) (k : String) (v : Job)
    (x : String) :
    x ∈ (updateAssoc m k v).map Prod.fst ↔ x ∈ m.map Prod.fst ∨ x = k := by
  induction m with
  | nil => simp [updateAssoc]
  | cons p rest ih =>
    by_cases hp : p.1 = k
    · simp [updateAssoc, hp]
      tauto
    · simp [updateAssoc, hp, ih]
      tauto

theorem updateAssoc_nodup (m : List (String × Job)) (k : String) (v : Job)
    (h : (m.map Prod.fst).Nodup) :
    ((updateAssoc m k v).map Prod.fst).Nodup := by
  induction m with
  | nil => simp [updateAssoc]
  | cons p rest ih =>
    simp only [List.map_cons, List.nodup_cons] at h
    by_cases hp : p.1 = k
    · simp only [updateAssoc, hp, if_true, List.map_cons, List.nodup_cons]
      exact ⟨by rw [← hp]; exact h.1, h.2⟩
    · simp only [updateAssoc, hp, if_false, List.map_cons, List.nodup_cons]
      refine ⟨?_, ih h.2⟩
      rw [updateAssoc_mem_fst]
      rintro (hin | hk)
      · exact h.1 hin
      · exact hp hk

theorem updateAssoc_val (m : List (String × Job)) (k : String) (v : Job)
    (h : ∀ p ∈ m, p.2.uid = p.1) (hv : v.uid = k) :
    ∀ p ∈ updateAssoc m k v, p.2.uid = p.1 := by
  induction m with
  | nil => simpa [updateAssoc] using hv
  | cons q rest ih =>
    by_cases hq : q.1 = k
    · simp only [updateAssoc, hq, if_true]
      intro p hp
      rcases List.mem_cons.mp hp with hp | hp
      · rw [hp]; exact hv
      · exact h p (List.mem_cons_of_mem _ hp)
    · simp only [updateAssoc, hq, if_false]
      intro p hp
      rcases List.mem_cons.mp hp with hp | hp
      · rw [hp]; exact h q (List.mem_cons_self _ _)
      · exact ih (fun p hp => h p (List.mem_cons_of_mem _ hp)) p hp

theorem uniqPass_fold_invariant (jobs : List Job) :
    ∀ m : List (String × Job), (m.map Prod.fst).Nodup → (∀ p ∈ m, p.2.uid = p.1) →
    (((jobs.foldl (fun m j => if j.url = "" then m else updateAssoc m j.uid j) m).map
        Prod.fst).Nodup ∧
      ∀ p ∈ jobs.foldl (fun m j => if j.url = "" then m else updateAssoc m j.uid j) m,
        p.2.uid = p.1) := by
  induction jobs with
  | nil => intro m h1 h2; exact ⟨h1, h2⟩
  | cons j rest ih =>
    intro m h1 h2
    rw [List.foldl_cons]
    by_cases hu : j.url = ""
    · rw [if_pos hu]
      exact ih m h1 h2
    · rw [if_neg hu]
      exact ih _ (updateAssoc_nodup m j.uid j h1) (updateAssoc_val m j.uid j h2 rfl)

theorem dedupeRun_uid_nodup (jobs : List Job) :
    ((dedupeRun jobs).map Job.uid).Nodup := by
  have h := uniqPass_fold_invariant jobs [] (by simp) (by simp)
  have hmap : (dedupeRun jobs).map Job.uid = (uniqPass jobs).map Prod.fst := by
    rw [dedupeRun, List.map_map]
    exact List.map_congr_left fun p hp => h.2 p hp
  rw [hmap]
  exact h.1

theorem pipelineNew_sublist (csv : String) (results : List (Except Unit (List Job)))
    (sent : List String) :
    List.Sublist (pipelineNew csv results sent) (dedupeRun (collectJobs results)) := by
  unfold pipelineNew newStage filterStage
  split
  · exact List.filter_sublist _
  · exact (List.filter_sublist _).trans (List.filter_sublist _)

theorem pipelineNew_uid_nodup (csv : String) (results : List (Except Unit (List Job)))
    (sent : List String) :
    ((pipelineNew csv results sent).map Job.uid).Nodup :=
  ((dedupeRun_uid_nodup (collectJobs results)).sublist
    ((pipelineNew_sublist csv results sent).map Job.uid))

/-- Claim C3: when the filter and cross-run dedupe leave more than
`MAX_SEND_PER_RUN = 8` new listings (sends succeeding), exactly the first 8
in merge order are delivered and exactly their 8 uids are recorded; every
listing beyond the first 8 is neither delivered nor recorded. -/
theorem cap_limits_delivery (row : UserRow) (force : Bool) (now : Int)
    (results : List (Except Unit (List Job))) (sent : List String)
    (hgate : ¬(force = false ∧ now - row.last_run < row.interval_min * 60))
    (hN : MAX_SEND_PER_RUN < (pipelineNew row.keywords results sent).length) :
    (fetch_and_send_for_user (fun _ => true) row force now results sent).delivered =
      (pipelineNew row.keywords results sent).take MAX_SEND_PER_RUN ∧
    (fetch_and_send_for_user (fun _ => true) row force now results sent).recorded =
      ((pipelineNew row.keywords results sent).take MAX_SEND_PER_RUN).map Job.uid ∧
    (fetch_and_send_for_user (fun _ => true) row force now results sent).delivered.length =
      MAX_SEND_PER_RUN ∧
    (fetch_and_send_for_user (fun _ => true) row force now results sent).recorded.length =
      MAX_SEND_PER_RUN ∧
    ∀ j ∈ (pipelineNew row.keywords results sent).drop MAX_SEND_PER_RUN,
      j ∉ (fetch_and_send_for_user (fun _ => true) row force now results sent).delivered ∧
      j.uid ∉ (fetch_and_send_for_user (fun _ => true) row force now results sent).recorded := by
  have hnew : pipelineNew row.keywords results sent ≠ [] := by
    intro h
    rw [h] at hN
    simp at hN
  have hres : fetch_and_send_for_user (fun _ => true) row force now results sent =
      { attempted := (pipelineNew row.keywords results sent).take MAX_SEND_PER_RUN
        delivered := (pipelineNew row.keywords results sent).take MAX_SEND_PER_RUN
        recorded := ((pipelineNew row.keywords results sent).take MAX_SEND_PER_RUN).map Job.uid
        lastRun := some now
        summary := if force then some ("✅ Sent " ++
          toString ((pipelineNew row.keywords results sent).take MAX_SEND_PER_RUN).length ++
          " jobs.") else none
        aborted := false } := by
    unfold fetch_and_send_for_user
    rw [if_neg hgate]
    simp [hnew, sendLoop_all_ok]
  have hlen : ((pipelineNew row.keywords results sent).take MAX_SEND_PER_RUN).length =
      MAX_SEND_PER_RUN := by
    rw [List.length_take]
    omega
  have hnd := pipelineNew_uid_nodup row.keywords results sent
  rw [← List.take_append_drop MAX_SEND_PER_RUN (pipelineNew row.keywords results sent),
    List.map_append, List.nodup_append] at hnd
  refine ⟨by rw [hres], by rw [hres], by rw [hres]; exact hlen,
    by rw [hres]; rw [List.length_map]; exact hlen, fun j hj => ?_⟩
  have hdisj := hnd.2.2
  have hjuid : j.uid ∈ ((pipelineNew row.keywords results sent).drop
      MAX_SEND_PER_RUN).map Job.uid := List.mem_map_of_mem Job.uid hj
  constructor
  · rw [hres]
    intro hjin
    exact hdisj (List.mem_map_of_mem Job.uid hjin) hjuid
  · rw [hres]
    intro hjin
    exact hdisj hjin hjuid

/-- Witness for C3: a forced cycle with nine new matching listings delivers
exactly eight, and the ninth is not delivered. -/
theorem cap_limits_delivery_witness :
    (fetch_and_send_for_user (fun _ => true) rowFix true 2000
      [Except.ok nineJobs] []).delivered.length = MAX_SEND_PER_RUN ∧
    jobN 8 ∉ (fetch_and_send_for_user (fun _ => true) rowFix true 2000
      [Except.ok nineJobs] []).delivered :=
  ⟨(cap_limits_delivery rowFix true 2000 [Except.ok nineJobs] []
      (by decide) (by decide)).2.2.1,
    ((cap_limits_delivery rowFix true 2000 [Except.ok nineJobs] []
      (by decide) (by decide)).2.2.2.2 (jobN 8) (by decide)).1⟩

/-- Claim C4: when the preference keyword list is not the unfiltered
sentinel, the post-filter keeps exactly the listings whose concatenated
title+company+location, case-insensitively, contains at least one preference
keyword as a substring; for the sentinel keyword list "all" the post-filter
is bypassed entirely. -/
theorem keyword_filter_semantics (csv : String) (jobs : List Job) :
    (parse_keywords_csv csv ≠ [""] →
      filterStage csv jobs = jobs.filter (fun j =>
        (((pySplitComma csv).map pyStrip).filter (fun k => k != "")).any
          (fun k => pySubstr (pyLower k)
            (pyLower (j.title ++ " " ++ j.company ++ " " ++ j.location))))) ∧
    filterStage "all" jobs = jobs := by
  constructor
  · intro h
    have hne : ((pySplitComma csv).map pyStrip).filter (fun k => k != "") ≠ [] := by
      intro hemp
      exact h (by simp [parse_keywords_csv, hemp])
    unfold filterStage
    rw [if_neg h]
    apply List.filter_congr
    intro j hj
    unfold keyword_match_any
    have hmapne : ((((pySplitComma csv).map pyStrip).filter
        (fun k => k != "")).map pyLower).isEmpty = false := by
      rw [List.isEmpty_eq_false]
      simpa using hne
    rw [if_neg (by simp [hmapne])]
    rw [List.any_map]
    rfl
  · simp [filterStage, (by decide : parse_keywords_csv "all" = [""])]

/-- Witness for C4 at a concrete keyword list and job pair. -/
theorem keyword_filter_semantics_witness :
    filterStage "python,java" [jobPy, jobSales] = [jobPy] := by
  have h := (keyword_filter_semantics "python,java" [jobPy, jobSales]).1 (by decide)
  rw [h]
  decide

theorem sendLoop_fails_at (s : Nat → Bool) (l : List Job) :
    ∀ (base k : Nat), (∀ i < k, s (base + i) = true) → s (base + k) = false →
      k < l.length →
      sendLoop s base l = ⟨l.take (k + 1), l.take k, (l.take k).map Job.uid, true⟩ := by
  induction l with
  | nil =>
    intro base k h1 h2 hk
    simp at hk
  | cons j rest ih =>
    intro base k h1 h2 hk
    cases k with
    | zero =>
      have hs : s base = false := by simpa using h2
      simp [sendLoop, hs]
    | succ k =>
      have hs : s base = true := by simpa using h1 0 (Nat.succ_pos k)
      have h2' : s (base + 1 + k) = false := by
        have harith : base + 1 + k = base + (k + 1) := by omega
        rw [harith]
        exact h2
      have h1' : ∀ i < k, s (base + 1 + i) = true := by
        intro i hi
        have harith : base + 1 + i = base + (i + 1) := by omega
        rw [harith]
        exact h1 (i + 1) (by omega)
      have hk' : k < rest.length := by simpa using hk
      simp [sendLoop, hs, ih (base + 1) k h1' h2' hk']

/-- Counterexample to claim C7: in a forced cycle with two new matching
listings where the channel send of the first one fails, the second listing
is never attempted (attempted = [jobPy] only), nothing is recorded, and the
exception aborts the cycle — the remaining listing of the same cycle is NOT
still attempted. -/
theorem send_failure_not_isolated_cex :
    pipelineNew "python,java" [Except.ok [jobPy, jobJava]] [] = [jobPy, jobJava] ∧
    fetch_and_send_for_user (fun i => i != 0) rowFix true 2000
      [Except.ok [jobPy, jobJava]] [] =
      { attempted := [jobPy], delivered := [], recorded := [], lastRun := none,
        summary := none, aborted := true } := by
  decide

/-- Amended claim C7: when the channel send fails for the (k+1)-st selected
listing (earlier sends succeeding), the failed listing gets no delivery
record, but the exception propagates and aborts the cycle: the listings
after the failed one are not attempted, only the k earlier listings are
delivered and recorded, last-run is not advanced and no summary is sent, so
the failed and remaining listings stay eligible for a future cycle. -/
theorem send_failure_aborts_cycle (sendOk : Nat → Bool) (row : UserRow)
    (force : Bool) (now : Int) (results : List (Except Unit (List Job)))
    (sent : List String) (k : Nat)
    (hgate : ¬(force = false ∧ now - row.last_run < row.interval_min * 60))
    (hfirst : ∀ i < k, sendOk i = true) (hk : sendOk k = false)
    (hlen : k < ((pipelineNew row.keywords results sent).take MAX_SEND_PER_RUN).length) :
    fetch_and_send_for_user sendOk row force now results sent =
      { attempted := ((pipelineNew row.keywords results sent).take MAX_SEND_PER_RUN).take (k + 1)
        delivered := ((pipelineNew row.keywords results sent).take MAX_SEND_PER_RUN).take k
        recorded := (((pipelineNew row.keywords results sent).take
          MAX_SEND_PER_RUN).take k).map Job.uid
        lastRun := none
        summary := none
        aborted := true } := by
  have hnew : pipelineNew row.keywords results sent ≠ [] := by
    intro h
    rw [h] at hlen
    simp at hlen
  have hloop := sendLoop_fails_at sendOk
    ((pipelineNew row.keywords results sent).take MAX_SEND_PER_RUN) 0 k
    (by simpa using hfirst) (by simpa using hk) hlen
  unfold fetch_and_send_for_user
  rw [if_neg hgate]
  simp [hnew, hloop]

/-- Witness for the amended C7: failure at the second send of a two-job
cycle keeps the first delivery and its record, then aborts. -/
theorem send_failure_aborts_cycle_witness :
    fetch_and_send_for_user (fun i => i != 1) rowFix true 2000
      [Except.ok [jobPy, jobJava]] [] =
      { attempted := [jobPy, jobJava], delivered := [jobPy],
        recorded := ["remotive:1"], lastRun := none, summary := none,
        aborted := true } := by
  have h := send_failure_aborts_cycle (fun i => i != 1) rowFix true 2000
    [Except.ok [jobPy, jobJava]] [] 1 (by decide) (by decide) (by decide) (by decide)
  rw [h]
  decide

theorem pyStrip_idem (s : String) : pyStrip (pyStrip s) = pyStrip s := by
  unfold pyStrip
  congr 1
  show List.rdropWhile Char.isWhitespace (List.dropWhile Char.isWhitespace
      (List.rdropWhile Char.isWhitespace (List.dropWhile Char.isWhitespace s.data))) =
    List.rdropWhile Char.isWhitespace (List.dropWhile Char.isWhitespace s.data)
  have h1 : List.dropWhile Char.isWhitespace
      (List.rdropWhile Char.isWhitespace (List.dropWhile Char.isWhitespace s.data)) =
      List.rdropWhile Char.isWhitespace (List.dropWhile Char.isWhitespace s.data) := by
    rcases hpre : List.rdropWhile Char.isWhitespace
        (List.dropWhile Char.isWhitespace s.data) with _ | ⟨a, t⟩
    · simp
    · have hpref := List.rdropWhile_prefix Char.isWhitespace
        (List.dropWhile Char.isWhitespace s.data)
      rw [hpre] at hpref
      rcases hpref with ⟨tail2, heq⟩
      have hd : List.dropWhile Char.isWhitespace s.data = a :: (t ++ tail2) := by
        rw [← heq]
        simp
      have hself := List.dropWhile_idempotent Char.isWhitespace s.data
      rw [hd] at hself
      have hna : ¬a.isWhitespace = true := by
        have hg := List.dropWhile_eq_self_iff.mp hself (by simp)
        simpa using hg
      simp [List.dropWhile_cons, hna]
  rw [h1, List.rdropWhile_idempotent]

/-- Counterexample to claim C9 at a concrete Remotive entry: normalization
defaults a missing company to the empty string, not to the sentinel literal
"Unknown", and a missing Remotive location to "Remote/Unspecified", not
"Unspecified". -/
theorem normalizer_missing_company_cex :
    (fetch_remotive [rawNoCompany]).map Job.company = [""] ∧
    (fetch_remotive [rawNoCompany]).map Job.company ≠ ["Unknown"] ∧
    (fetch_remotive [rawNoCompany]).map Job.location = ["Remote/Unspecified"] := by
  decide

/-- Amended claim C9: normalization trims whitespace on the title, company,
location and url fields of each produced listing and truncates each raw
provider list to at most 25 entries before normalization, but a missing
company is defaulted to the empty string (Remotive missing location to
"Remote/Unspecified", Adzuna missing location to the stripped subscriber
location, else "Unspecified"); the "Unknown"/"Unspecified" sentinel literals
are applied at message-formatting time (`fmt_job`), not by the normalizer. -/
theorem normalization_behavior :
    (∀ raw : List RawRemotive, (fetch_remotive raw).length ≤ RESULTS_PER_PROVIDER) ∧
    (∀ (whereLoc : String) (raw : List RawAdzuna),
      (fetch_adzuna whereLoc raw).length ≤ RESULTS_PER_PROVIDER) ∧
    (∀ raw : List RawRemotive, ∀ j ∈ fetch_remotive raw,
      pyStrip j.title = j.title ∧ pyStrip j.company = j.company ∧
      pyStrip j.location = j.location ∧ pyStrip j.url = j.url) ∧
    (∀ (whereLoc : String) (raw : List RawAdzuna), ∀ j ∈ fetch_adzuna whereLoc raw,
      pyStrip j.title = j.title ∧ pyStrip j.company = j.company ∧
      pyStrip j.location = j.location ∧ pyStrip j.url = j.url) ∧
    (∀ e : RawRemotive, e.company_name = none → (remotiveJob e).company = "") ∧
    (∀ e : RawRemotive, e.candidate_required_location = none →
      (remotiveJob e).location = "Remote/Unspecified") ∧
    (∀ (whereLoc : String) (e : RawAdzuna), e.company_display_name = none →
      (adzunaJob whereLoc e).company = "") ∧
    (∀ (whereLoc : String) (e : RawAdzuna), e.location_display_name = none →
      (adzunaJob whereLoc e).location =
        if pyStrip whereLoc ≠ "" then pyStrip whereLoc else "Unspecified") ∧
    (∀ j : Job, j.company = "" → fmt_job j = fmt_job { j with company := "Unknown" }) ∧
    (∀ j : Job, j.location = "" → fmt_job j = fmt_job { j with location := "Unspecified" }) := by
  refine ⟨?_, ?_, ?_, ?_, ?_, ?_, ?_, ?_, ?_, ?_⟩
  · intro raw
    calc (fetch_remotive raw).length = (raw.take RESULTS_PER_PROVIDER).length := by
          simp [fetch_remotive]
      _ ≤ RESULTS_PER_PROVIDER := by
          rw [List.length_take]
          omega
  · intro whereLoc raw
    calc (fetch_adzuna whereLoc raw).length = (raw.take RESULTS_PER_PROVIDER).length := by
          simp [fetch_adzuna]
      _ ≤ RESULTS_PER_PROVIDER := by
          rw [List.length_take]
          omega
  · intro raw j hj
    rcases List.mem_map.mp hj with ⟨e, -, hje⟩
    subst hje
    exact ⟨pyStrip_idem _, pyStrip_idem _, pyStrip_idem _, pyStrip_idem _⟩
  · intro whereLoc raw j hj
    rcases List.mem_map.mp hj with ⟨e, -, hje⟩
    subst hje
    refine ⟨pyStrip_idem _, pyStrip_idem _, ?_, pyStrip_idem _⟩
    simp only [adzunaJob]
    split
    · exact pyStrip_idem _
    · split
      · exact pyStrip_idem _
      · decide
  · intro e he
    simp [remotiveJob, he, pyOr]
    decide
  · intro e he
    simp [remotiveJob, he, pyOr]
    decide
  · intro whereLoc e he
    simp [adzunaJob, he, pyOr]
    decide
  · intro whereLoc e he
    have h0 : pyStrip (pyOr (none : Option String) "") = "" := by decide
    simp [adzunaJob, he, h0]
  · intro j hc
    unfold fmt_job
    rw [hc]
    simp [(by decide : ¬("Unknown" : String) = "")]
  · intro j hl
    unfold fmt_job
    rw [hl]
    simp [(by decide : ¬("Unspecified" : String) = "")]

/-- Witness for the amended C9: the concrete missing-company Remotive entry
is normalized to an empty company, the concrete missing-location Adzuna
entry falls back to the subscriber's stripped location, and formatting
substitutes "Unknown" for an empty company. -/
theorem normalization_behavior_witness :
    (remotiveJob rawNoCompany).company = "" ∧
    (adzunaJob " Pune " rawAdzNoLoc).location =
      (if pyStrip " Pune " ≠ "" then pyStrip " Pune " else "Unspecified") ∧
    fmt_job jobNoCo = fmt_job { jobNoCo with company := "Unknown" } :=
  ⟨normalization_behavior.2.2.2.2.1 rawNoCompany rfl,
    normalization_behavior.2.2.2.2.2.2.2.1 " Pune " rawAdzNoLoc rfl,
    normalization_behavior.2.2.2.2.2.2.2.2.1 jobNoCo rfl⟩

end JobBot
